import Mathlib

/-!
Verification of the snowgander Anthropic vendor adapter
(src/src/vendors/anthropic.ts) against its natural-language design
specification.

The development gives a shallow embedding of the adapter: the canonical
content model, the outbound message formatting of generateResponse, the
inbound content mapping, the usage/cost computation, the vendor request
construction, sendChat's option derivation, and sendChat's defensive tool
schema mapping (which needs a concrete model of JSON.parse and
JSON.stringify, given below).

JavaScript numbers that the adapter treats as token counts are modelled as
Nat; monetary rates and JSON numbers are modelled as exact rationals.
JavaScript truthiness tests from the source are made explicit with small
jsTruthy/jsOr helpers.
-/

namespace Snowgander

/-! ## JSON values

A runtime JavaScript value, as far as the adapter inspects one: the JSON
data model. Used both for tool input_schema values (which may arrive as a
string to be parsed or as a live object) and for the modelled
JSON.parse / JSON.stringify.
-/

inductive Json where
  | null : Json
  | bool (b : Bool) : Json
  | num (q : ℚ) : Json
  | str (s : String) : Json
  | arr (elems : List Json) : Json
  | obj (fields : List (String × Json)) : Json
deriving Repr

/-! ## A model of JSON.parse

Recursive-descent parser over the character list, following the JSON
grammar (RFC 8259): optional whitespace, the literals null/true/false,
numbers without leading zeros, strings with the standard escape set
including unicode escapes, arrays and objects. Recursion is bounded by an
explicit fuel argument; jsonParse supplies more fuel than any input can
consume, and requires the whole input to be consumed (JSON.parse rejects
trailing garbage).
-/

def lbraceC : Char := Char.ofNat 123

def rbraceC : Char := Char.ofNat 125

def isJsonWs (c : Char) : Bool :=
  c = ' ' || c = '\t' || c = '\n' || c = '\r'

def skipWs : List Char → List Char
  | [] => []
  | c :: cs => if isJsonWs c then skipWs cs else c :: cs

def hexVal (c : Char) : Option Nat :=
  if '0' ≤ c ∧ c ≤ '9' then some (c.toNat - 48)
  else if 'a' ≤ c ∧ c ≤ 'f' then some (c.toNat - 87)
  else if 'A' ≤ c ∧ c ≤ 'F' then some (c.toNat - 55)
  else none

def escChar : Char → Option Char
  | '"' => some '"'
  | '\\' => some '\\'
  | '/' => some '/'
  | 'b' => some (Char.ofNat 8)
  | 'f' => some (Char.ofNat 12)
  | 'n' => some '\n'
  | 'r' => some '\r'
  | 't' => some '\t'
  | _ => none

/-- Parse the body of a JSON string after the opening quote, returning the
decoded characters and the remaining input after the closing quote. -/
def parseStringChars : Nat → List Char → Option (List Char × List Char)
  | 0, _ => none
  | _, [] => none
  | fuel + 1, c :: cs =>
    if c = '"' then some ([], cs)
    else if c = '\\' then
      match cs with
      | [] => none
      | e :: cs2 =>
        if e = 'u' then
          match cs2 with
          | h1 :: h2 :: h3 :: h4 :: cs3 =>
            match hexVal h1, hexVal h2, hexVal h3, hexVal h4 with
            | some a, some b, some c2, some d =>
              (parseStringChars fuel cs3).map
                (fun r => (Char.ofNat (((a * 16 + b) * 16 + c2) * 16 + d) :: r.1, r.2))
            | _, _, _, _ => none
          | _ => none
        else
          match escChar e with
          | some ch => (parseStringChars fuel cs2).map (fun r => (ch :: r.1, r.2))
          | none => none
    else if c.toNat < 32 then none
    else (parseStringChars fuel cs).map (fun r => (c :: r.1, r.2))

def takeDigits : List Char → List Char × List Char
  | [] => ([], [])
  | c :: cs =>
    if c.isDigit then
      let r := takeDigits cs
      (c :: r.1, r.2)
    else ([], c :: cs)

def digitsToNat (ds : List Char) : Nat :=
  ds.foldl (fun acc c => acc * 10 + (c.toNat - 48)) 0

/-- Parse a JSON number: optional minus sign, integer part without leading
zeros, optional fraction, optional exponent. Yields its exact rational
value. -/
def parseNumber (cs : List Char) : Option (ℚ × List Char) :=
  let (neg, cs1) :=
    match cs with
    | '-' :: rest => (true, rest)
    | _ => (false, cs)
  let (intDs, cs2) := takeDigits cs1
  if intDs = [] then none
  else if intDs.length > 1 ∧ intDs.head? = some '0' then none
  else
    let (fracDs, cs3) :=
      match cs2 with
      | '.' :: rest =>
        let r := takeDigits rest
        (r.1, r.2)
      | _ => ([], cs2)
    match cs2, fracDs with
    | '.' :: _, [] => none
    | _, _ =>
      let base : ℚ := (digitsToNat intDs : ℚ) +
        (digitsToNat fracDs : ℚ) / ((10 : ℚ) ^ fracDs.length)
      let expPart : Option (Int × List Char) :=
        match cs3 with
        | 'e' :: rest | 'E' :: rest =>
          let (esign, rest1) :=
            match rest with
            | '+' :: r => ((1 : Int), r)
            | '-' :: r => ((-1 : Int), r)
            | _ => ((1 : Int), rest)
          let (expDs, rest2) := takeDigits rest1
          if expDs = [] then none
          else some (esign * (digitsToNat expDs : Int), rest2)
        | _ => some (0, cs3)
      match expPart with
      | none => none
      | some (e, cs4) =>
        let scaled : ℚ :=
          if 0 ≤ e then base * (10 : ℚ) ^ e.toNat
          else base / (10 : ℚ) ^ (-e).toNat
        some (if neg then -scaled else scaled, cs4)

/-- Check whether a literal keyword is a prefix of the input, returning the
rest. -/
def expectChars : List Char → List Char → Option (List Char)
  | [], cs => some cs
  | _, [] => none
  | k :: ks, c :: cs => if k = c then expectChars ks cs else none

mutual

/-- Parse one JSON value, skipping leading whitespace. -/
def parseValue : Nat → List Char → Option (Json × List Char)
  | 0, _ => none
  | fuel + 1, cs =>
    match skipWs cs with
    | [] => none
    | c :: rest =>
      if c = '"' then
        (parseStringChars fuel rest).map (fun r => (Json.str (String.mk r.1), r.2))
      else if c = lbraceC then
        match skipWs rest with
        | c2 :: rest2 =>
          if c2 = rbraceC then some (Json.obj [], rest2)
          else (parseObjItems fuel (c2 :: rest2)).map (fun r => (Json.obj r.1, r.2))
        | [] => none
      else if c = '[' then
        match skipWs rest with
        | ']' :: rest2 => some (Json.arr [], rest2)
        | rest2 => (parseArrItems fuel rest2).map (fun r => (Json.arr r.1, r.2))
      else if c = 't' then
        (expectChars ['r', 'u', 'e'] rest).map (fun r => (Json.bool true, r))
      else if c = 'f' then
        (expectChars ['a', 'l', 's', 'e'] rest).map (fun r => (Json.bool false, r))
      else if c = 'n' then
        (expectChars ['u', 'l', 'l'] rest).map (fun r => (Json.null, r))
      else
        (parseNumber (c :: rest)).map (fun r => (Json.num r.1, r.2))

/-- Parse the comma-separated elements of a non-empty array, through the
closing bracket. -/
def parseArrItems : Nat → List Char → Option (List Json × List Char)
  | 0, _ => none
  | fuel + 1, cs =>
    match parseValue fuel cs with
    | none => none
    | some (v, rest) =>
      match skipWs rest with
      | ',' :: rest2 =>
        (parseArrItems fuel rest2).map (fun r => (v :: r.1, r.2))
      | ']' :: rest2 => some ([v], rest2)
      | _ => none

/-- Parse the comma-separated members of a non-empty object, through the
closing brace. -/
def parseObjItems : Nat → List Char → Option (List (String × Json) × List Char)
  | 0, _ => none
  | fuel + 1, cs =>
    match skipWs cs with
    | '"' :: rest =>
      match parseStringChars fuel rest with
      | none => none
      | some (keyChars, rest1) =>
        match skipWs rest1 with
        | ':' :: rest2 =>
          match parseValue fuel rest2 with
          | none => none
          | some (v, rest3) =>
            match skipWs rest3 with
            | ',' :: rest4 =>
              (parseObjItems fuel rest4).map
                (fun r => ((String.mk keyChars, v) :: r.1, r.2))
            | c :: rest4 =>
              if c = rbraceC then some ([(String.mk keyChars, v)], rest4)
              else none
            | [] => none
        | _ => none
    | _ => none

end

/-- The model of JSON.parse: parse one value and require the input to be
fully consumed. Fails (returns none) exactly where JSON.parse throws. -/
def jsonParse (s : String) : Option Json :=
  match parseValue (s.length + 8) s.data with
  | some (j, rest) => if skipWs rest = [] then some j else none
  | none => none

/-! ## A model of JSON.stringify -/

def hexDigitChar (n : Nat) : Char :=
  if n < 10 then Char.ofNat (48 + n) else Char.ofNat (87 + n)

def escapeJsonChar (c : Char) : String :=
  if c = '"' then "\\\""
  else if c = '\\' then "\\\\"
  else if c = '\n' then "\\n"
  else if c = '\r' then "\\r"
  else if c = '\t' then "\\t"
  else if c = Char.ofNat 8 then "\\b"
  else if c = Char.ofNat 12 then "\\f"
  else if c.toNat < 32 then
    "\\u00" ++ String.singleton (hexDigitChar (c.toNat / 16)) ++
      String.singleton (hexDigitChar (c.toNat % 16))
  else String.singleton c

def quoteJsonString (s : String) : String :=
  "\"" ++ String.join (s.data.map escapeJsonChar) ++ "\""

/-- Decimal rendering of a rational whose denominator divides a power of
ten: every number produced by jsonParse has this form, since it comes from
finitely many decimal digits. (Rationals outside this form cannot reach
jsonStringify from the adapter's code paths; they are rendered from the
scaled numerator as a safe total fallback.) -/
def qToString (q : ℚ) : String :=
  if q.den = 1 then toString q.num
  else
    match (List.range 65).find? (fun k => (10 : ℕ) ^ k % q.den = 0) with
    | some k =>
      let scaled : Int := q.num * ((10 : ℕ) ^ k / q.den : ℕ)
      let digits := toString scaled.natAbs
      let padded :=
        if digits.length ≤ k then
          String.mk (List.replicate (k + 1 - digits.length) '0') ++ digits
        else digits
      let intPart := String.mk (padded.data.take (padded.length - k))
      let fracPart := String.mk (padded.data.drop (padded.length - k))
      (if q.num < 0 then "-" else "") ++ intPart ++ "." ++ fracPart
    | none => toString q.num

mutual

/-- The model of JSON.stringify on JSON values: no spaces, fields in
insertion order, strings escaped. -/
def jsonStringify : Json → String
  | Json.null => "null"
  | Json.bool true => "true"
  | Json.bool false => "false"
  | Json.num q => qToString q
  | Json.str s => quoteJsonString s
  | Json.arr xs => "[" ++ String.intercalate "," (stringifyList xs) ++ "]"
  | Json.obj fs => "\x7b" ++ String.intercalate "," (stringifyFields fs) ++ "\x7d"

def stringifyList : List Json → List String
  | [] => []
  | x :: xs => jsonStringify x :: stringifyList xs

def stringifyFields : List (String × Json) → List String
  | [] => []
  | (k, v) :: fs => (quoteJsonString k ++ ":" ++ jsonStringify v) :: stringifyFields fs

end

/-! ## Canonical content model (src/types, as used by the adapter) -/

inductive ContentBlock where
  | text (text : String)
  | thinking (thinking : String) (signature : String)
  | redactedThinking (data : String)
  | image (url : String)
  | imageData (mimeType : String) (base64Data : String)
  | toolUse (name : String) (input : String)
deriving DecidableEq, Repr

/-- A message body is either a plain string or a list of content blocks;
the source checks typeof msg.content at anthropic.ts:65. -/
inductive MessageContent where
  | str (s : String)
  | blocks (bs : List ContentBlock)
deriving DecidableEq, Repr

structure Message where
  role : String
  content : MessageContent
deriving DecidableEq, Repr

structure UsageResponse where
  inputCost : ℚ
  outputCost : ℚ
  totalCost : ℚ
deriving DecidableEq, Repr

structure AIResponse where
  role : String
  content : List ContentBlock
  usage : Option UsageResponse
deriving DecidableEq, Repr

structure ChatResponse where
  role : String
  content : List ContentBlock
  usage : Option UsageResponse
deriving DecidableEq, Repr

structure VendorConfig where
  apiKey : String
  baseURL : Option String := none

structure ModelConfig where
  apiName : String
  isVision : Bool
  isImageGeneration : Bool
  isThinking : Bool
  inputTokenCost : Option ℚ
  outputTokenCost : Option ℚ

/-- An MCP tool definition as the tool mapping inspects it: name,
description, and an input_schema that may be a string or any live value. -/
structure MCPTool where
  name : String
  description : String
  input_schema : Json

structure AnthropicTool where
  name : String
  description : String
  input_schema : Json

structure AIRequestOptions where
  model : String
  messages : List Message
  maxTokens : Option Nat
  budgetTokens : Option Nat
  systemPrompt : Option String
  thinkingMode : Bool
  tools : Option (List AnthropicTool)

structure Chat where
  model : String
  responseHistory : List Message
  prompt : String
  systemPrompt : Option String
  maxTokens : Option Nat
  budgetTokens : Option Nat
  mcpAvailableTools : Option (List MCPTool)

/-! ## JavaScript truthiness helpers

The source gates several behaviours on JS truthiness: a number is falsy
exactly when it is 0 (token counts are modelled as Nat, rates as ℚ), a
string is falsy exactly when it is empty, and null/undefined (modelled as
none) are falsy.
-/

def jsTruthyNat (n : Nat) : Bool := if n = 0 then false else true

def jsTruthyStr (s : String) : Bool := if s = "" then false else true

def jsTruthyOptQ (x : Option ℚ) : Bool :=
  match x with
  | none => false
  | some q => if q = 0 then false else true

/-- The value of the JS expression x || d for an optional number x. -/
def jsOrNat (x : Option Nat) (d : Nat) : Nat :=
  match x with
  | none => d
  | some n => if n = 0 then d else n

/-- The value of the JS expression x || undefined for an optional number x. -/
def jsOrUndefNat (x : Option Nat) : Option Nat :=
  match x with
  | none => none
  | some n => if n = 0 then none else some n

/-- The value of the JS expression x || undefined for an optional string x. -/
def jsOrUndefStr (x : Option String) : Option String :=
  match x with
  | none => none
  | some s => if s = "" then none else some s

/-! ## The adapter and its constructor (anthropic.ts:21-45) -/

structure AnthropicAdapter where
  isVisionCapable : Bool
  isImageGenerationCapable : Bool
  isThinkingCapable : Bool
  inputTokenCost : Option ℚ
  outputTokenCost : Option ℚ

/-- The constructor (anthropic.ts:30-45): capability flags are copied from
the ModelConfig; the two token costs are stored only when both are truthy
(anthropic.ts:41-44), otherwise neither is stored. The Anthropic client
construction is a pure connection setup and carries no further state. -/
def mkAnthropicAdapter (_config : VendorConfig) (mc : ModelConfig) : AnthropicAdapter :=
  { isVisionCapable := mc.isVision
    isImageGenerationCapable := mc.isImageGeneration
    isThinkingCapable := mc.isThinking
    inputTokenCost :=
      if jsTruthyOptQ mc.inputTokenCost && jsTruthyOptQ mc.outputTokenCost then
        mc.inputTokenCost
      else none
    outputTokenCost :=
      if jsTruthyOptQ mc.inputTokenCost && jsTruthyOptQ mc.outputTokenCost then
        mc.outputTokenCost
      else none }

/-! ## Outbound message formatting (anthropic.ts:61-106) -/

inductive AnthropicOutBlock where
  | text (text : String)
  | thinking (thinking : String) (signature : String)
deriving DecidableEq, Repr

inductive AnthropicMsgContent where
  | str (s : String)
  | blocks (bs : List AnthropicOutBlock)
deriving DecidableEq, Repr

structure AnthropicMessage where
  role : String
  content : AnthropicMsgContent
deriving DecidableEq, Repr

/-- One step of the reduce at anthropic.ts:70-96: a text block is pushed as
a text param, a thinking block is pushed with its thinking text and
signature, every other kind is not pushed. -/
def mapOutBlock : ContentBlock → Option AnthropicOutBlock
  | ContentBlock.text t => some (AnthropicOutBlock.text t)
  | ContentBlock.thinking t s => some (AnthropicOutBlock.thinking t s)
  | _ => none

def mapOutBlocks (bs : List ContentBlock) : List AnthropicOutBlock :=
  bs.filterMap mapOutBlock

/-- The JS object carried by each canonical content block, for
JSON.stringify of a content array (anthropic.ts:104). -/
def blockToJson : ContentBlock → Json
  | ContentBlock.text t =>
    Json.obj [("type", Json.str "text"), ("text", Json.str t)]
  | ContentBlock.thinking t s =>
    Json.obj [("type", Json.str "thinking"), ("thinking", Json.str t),
      ("signature", Json.str s)]
  | ContentBlock.redactedThinking d =>
    Json.obj [("type", Json.str "redacted_thinking"), ("data", Json.str d)]
  | ContentBlock.image u =>
    Json.obj [("type", Json.str "image"), ("url", Json.str u)]
  | ContentBlock.imageData m b =>
    Json.obj [("type", Json.str "image_data"), ("mimeType", Json.str m),
      ("base64Data", Json.str b)]
  | ContentBlock.toolUse n i =>
    Json.obj [("type", Json.str "tool_use"), ("name", Json.str n),
      ("input", Json.str i)]

def stringifyContentBlocks (bs : List ContentBlock) : String :=
  jsonStringify (Json.arr (bs.map blockToJson))

/-- The role mapping at anthropic.ts:62-63. -/
def roleOf (r : String) : String := if r = "assistant" then "assistant" else "user"

/-- The message formatting at anthropic.ts:61-106: string content passes
through; block content is mapped blockwise, and if no block survives the
mapping the content falls back to the JSON.stringify of the original block
array (anthropic.ts:98-105). -/
def formatMessage (m : Message) : AnthropicMessage :=
  match m.content with
  | MessageContent.str s => ⟨roleOf m.role, AnthropicMsgContent.str s⟩
  | MessageContent.blocks bs =>
    let mapped := mapOutBlocks bs
    if mapped.length > 0 then ⟨roleOf m.role, AnthropicMsgContent.blocks mapped⟩
    else ⟨roleOf m.role, AnthropicMsgContent.str (stringifyContentBlocks bs)⟩

/-! ## The vendor request (anthropic.ts:108-121) -/

structure ThinkingConfig where
  type : String
  budget_tokens : Nat
deriving DecidableEq, Repr

structure AnthropicRequest where
  model : String
  messages : List AnthropicMessage
  system : Option String
  max_tokens : Nat
  thinking : Option ThinkingConfig
  tools : Option (List AnthropicTool)

/-- The argument of the single client.messages.create call
(anthropic.ts:108-121): max_tokens is maxTokens || 1024; the thinking block
is present only when thinkingMode && isThinkingCapable, with budget_tokens
equal to budgetTokens || floor of (maxTokens || 1024) / 2; tools are spread
in when provided. -/
def buildRequest (a : AnthropicAdapter) (o : AIRequestOptions) : AnthropicRequest :=
  { model := o.model
    messages := o.messages.map formatMessage
    system := o.systemPrompt
    max_tokens := jsOrNat o.maxTokens 1024
    thinking :=
      if o.thinkingMode && a.isThinkingCapable then
        some ⟨"enabled", jsOrNat o.budgetTokens (jsOrNat o.maxTokens 1024 / 2)⟩
      else none
    tools := o.tools }

/-! ## Inbound content mapping (anthropic.ts:146-170) -/

inductive AnthropicResponseBlock where
  | text (text : String)
  | thinking (thinking : String) (signature : String)
  | redactedThinking (data : String)
  | toolUse (name : String) (input : Json)
  | unknown (tag : String)
deriving Repr

/-- One step of the inbound loop (anthropic.ts:149-170): a thinking block
is pushed with its thinking text and the literal signature "anthropic"
(regardless of the signature the vendor sent), a text block with its text,
a tool_use block with its name and the JSON.stringify of its input; every
other kind is skipped. -/
def mapInboundBlock : AnthropicResponseBlock → Option ContentBlock
  | AnthropicResponseBlock.thinking t _sig => some (ContentBlock.thinking t "anthropic")
  | AnthropicResponseBlock.text t => some (ContentBlock.text t)
  | AnthropicResponseBlock.toolUse n i => some (ContentBlock.toolUse n (jsonStringify i))
  | _ => none

def mapInbound (blocks : List AnthropicResponseBlock) : List ContentBlock :=
  blocks.filterMap mapInboundBlock

structure RawUsage where
  input_tokens : Nat
  output_tokens : Nat
deriving DecidableEq, Repr

structure RawResponse where
  content : List AnthropicResponseBlock
  usage : RawUsage

/-! ## Usage computation (anthropic.ts:123-144) -/

/-- Modelled from the spec: computeResponseCost is defined in src/utils.ts,
which is not among the provided sources. Spec section 4.3 gives the pure
function cost = tokenCount × per-token rate; rates are configured as the
per-token fraction (the repository test configuration sets inputTokenCost
to 15 / 1_000_000), so the section 8 scenario of 10 input tokens at rate
15/1,000,000 yields 0.00015. -/
def computeResponseCost (tokens : Nat) (cost : ℚ) : ℚ := (tokens : ℚ) * cost

/-- The usage computation of generateResponse (anthropic.ts:123-144): usage
is populated only when input_tokens, output_tokens, inputTokenCost and
outputTokenCost are all truthy; then inputCost and outputCost come from
computeResponseCost and totalCost is their sum. -/
def computeUsage (a : AnthropicAdapter) (u : RawUsage) : Option UsageResponse :=
  if jsTruthyNat u.input_tokens && jsTruthyNat u.output_tokens &&
      jsTruthyOptQ a.inputTokenCost && jsTruthyOptQ a.outputTokenCost then
    let inputCost := computeResponseCost u.input_tokens (a.inputTokenCost.getD 0)
    let outputCost := computeResponseCost u.output_tokens (a.outputTokenCost.getD 0)
    some ⟨inputCost, outputCost, inputCost + outputCost⟩
  else none

/-- generateResponse (anthropic.ts:47-181) as a function of the adapter,
the request options and the raw vendor response of its single
messages.create call (whose request is buildRequest a o): the canonical
response has role assistant, the inbound-mapped content, and the computed
usage. -/
def generateResponse (a : AnthropicAdapter) (_o : AIRequestOptions)
    (raw : RawResponse) : AIResponse :=
  { role := "assistant"
    content := mapInbound raw.content
    usage := computeUsage a raw.usage }

/-! ## generateImage (anthropic.ts:183-185) -/

def imageNotSupportedMessage : String := "Image generation not supported by Anthropic"

/-- generateImage (anthropic.ts:183-185): unconditionally throws the
not-supported error; it never produces an image string and never reaches
the vendor client. -/
def generateImage (_a : AnthropicAdapter) (_chat : Chat) : Except String String :=
  Except.error imageNotSupportedMessage

/-! ## Tool schema mapping (anthropic.ts:198-266) -/

def fallbackSchema : Json :=
  Json.obj [("type", Json.str "object"), ("properties", Json.obj [])]

/-- The JS test of the expression quoted as: quote type unquote in schema. -/
def hasTypeField (fs : List (String × Json)) : Bool :=
  fs.any (fun f => f.1 = "type")

/-- The defensive schema normalisation at anthropic.ts:203-255: a string
schema is JSON.parsed, and the result is kept only when it is a non-null
object owning a type property; a live object value is kept under the same
condition; on a parse error, a non-object parse result, a missing type
field, or a non-string non-object input, the fallback schema is used. A JS
array has typeof object but owns no type property, so it also falls back. -/
def mapToolSchema (is : Json) : Json :=
  match is with
  | Json.str s =>
    match jsonParse s with
    | some (Json.obj fs) => if hasTypeField fs then Json.obj fs else fallbackSchema
    | some _ => fallbackSchema
    | none => fallbackSchema
  | Json.obj fs => if hasTypeField fs then Json.obj fs else fallbackSchema
  | _ => fallbackSchema

/-- The per-tool mapping at anthropic.ts:200-265: name and description pass
through, the input schema is normalised; the mapping never fails. -/
def mapTool (t : MCPTool) : AnthropicTool :=
  ⟨t.name, t.description, mapToolSchema t.input_schema⟩

/-- The tool formatting of sendChat (anthropic.ts:198-266): tools are
mapped when mcpAvailableTools is present and non-empty, otherwise
undefined is passed. -/
def formatTools (chat : Chat) : Option (List AnthropicTool) :=
  match chat.mcpAvailableTools with
  | some ts => if ts.length > 0 then some (ts.map mapTool) else none
  | none => none

/-! ## sendChat (anthropic.ts:187-283) -/

/-- The outbound message list of sendChat (anthropic.ts:189-195): a copy of
the response history, with the prompt appended as one user message holding
a single text block when the prompt is truthy. -/
def sendChatMessages (chat : Chat) : List Message :=
  if jsTruthyStr chat.prompt then
    chat.responseHistory ++
      [⟨"user", MessageContent.blocks [ContentBlock.text chat.prompt]⟩]
  else chat.responseHistory

/-- The AIRequestOptions that sendChat passes to generateResponse
(anthropic.ts:268-276). -/
def sendChatOptions (chat : Chat) : AIRequestOptions :=
  { model := chat.model
    messages := sendChatMessages chat
    maxTokens := jsOrUndefNat chat.maxTokens
    budgetTokens := jsOrUndefNat chat.budgetTokens
    systemPrompt := jsOrUndefStr chat.systemPrompt
    thinkingMode := decide (0 < chat.budgetTokens.getD 0)
    tools := formatTools chat }

/-- sendChat (anthropic.ts:187-283): delegates to generateResponse with
sendChatOptions and returns its role, content and usage. -/
def sendChat (a : AnthropicAdapter) (chat : Chat) (raw : RawResponse) : ChatResponse :=
  let response := generateResponse a (sendChatOptions chat) raw
  ⟨response.role, response.content, response.usage⟩

/-! ## sendMCPChat (anthropic.ts:285) -/

inductive MCPChatResult where
  | ok (r : ChatResponse)
  | thrownError (message : String)
  | typeErrorNotAFunction
deriving Repr

/-- The fixed explanatory message that the repository's embedded test suite
(README, sendMCPChat tests) expects sendMCPChat to throw. -/
def mcpNotSupportedMessage : String :=
  "Direct MCP tool execution is not handled within the AIVendorAdapter. The calling application must manage tool definition, execution, and result submission."

/-- From the source: the AnthropicAdapter class body defines only the
constructor, generateResponse, generateImage and sendChat; the sendMCPChat
method is removed (comment at anthropic.ts:285). Invoking a method an
object does not have raises a TypeError in JavaScript, so a call to
adapter.sendMCPChat raises a TypeError rather than throwing an Error
carrying a message. -/
def sendMCPChat (_a : AnthropicAdapter) (_chat : Chat) (_tool : MCPTool) : MCPChatResult :=
  MCPChatResult.typeErrorNotAFunction

/-! ## Round trip through a vendor echo -/

/-- A vendor echo of an outbound content block: the same text or thinking
payload comes back as a response content block, the thinking block keeping
the signature it was sent with. -/
def echoBlock : AnthropicOutBlock → AnthropicResponseBlock
  | AnthropicOutBlock.text t => AnthropicResponseBlock.text t
  | AnthropicOutBlock.thinking t s => AnthropicResponseBlock.thinking t s

/-- Outbound mapping followed by the inbound mapping of the vendor's echo
of the mapped blocks. -/
def roundTrip (bs : List ContentBlock) : List ContentBlock :=
  mapInbound ((mapOutBlocks bs).map echoBlock)

/-- The content-block kinds the Anthropic outbound mapper supports. -/
def anthropicSupported : ContentBlock → Bool
  | ContentBlock.text _ => true
  | ContentBlock.thinking _ _ => true
  | _ => false

/-- The inbound replacement that the adapter actually applies to a
supported block: text is untouched, a thinking block keeps its text and
gets the literal signature. -/
def inboundCanonical : ContentBlock → ContentBlock
  | ContentBlock.thinking t _ => ContentBlock.thinking t "anthropic"
  | b => b

/-! ## Helper lemmas -/

theorem stringifyContentBlocks_ne_empty (bs : List ContentBlock) :
    stringifyContentBlocks bs ≠ "" := by
  intro h
  have h2 := congrArg String.length h
  simp only [stringifyContentBlocks, jsonStringify, String.length_append] at h2
  have hl : ("[" : String).length = 1 := rfl
  have hr : ("]" : String).length = 1 := rfl
  have he : ("" : String).length = 0 := rfl
  rw [hl, hr, he] at h2
  omega

theorem mkAdapter_stored_input_ne_zero (vc : VendorConfig) (mc : ModelConfig)
    (c : ℚ) (h : (mkAnthropicAdapter vc mc).inputTokenCost = some c) : c ≠ 0 := by
  unfold mkAnthropicAdapter at h
  dsimp only at h
  split at h
  · rename_i hg
    rw [Bool.and_eq_true] at hg
    have h1 : jsTruthyOptQ (some c) = true := by rw [← h]; exact hg.1
    intro h0
    subst h0
    simp [jsTruthyOptQ] at h1
  · cases h

theorem mkAdapter_stored_output_ne_zero (vc : VendorConfig) (mc : ModelConfig)
    (c : ℚ) (h : (mkAnthropicAdapter vc mc).outputTokenCost = some c) : c ≠ 0 := by
  unfold mkAnthropicAdapter at h
  dsimp only at h
  split at h
  · rename_i hg
    rw [Bool.and_eq_true] at hg
    have h2 : jsTruthyOptQ (some c) = true := by rw [← h]; exact hg.2
    intro h0
    subst h0
    simp [jsTruthyOptQ] at h2
  · cases h

theorem jsTruthyOptQ_eq_isSome_of_stored_input (vc : VendorConfig) (mc : ModelConfig) :
    jsTruthyOptQ (mkAnthropicAdapter vc mc).inputTokenCost =
      (mkAnthropicAdapter vc mc).inputTokenCost.isSome := by
  rcases h : (mkAnthropicAdapter vc mc).inputTokenCost with _ | c
  · rfl
  · have hc := mkAdapter_stored_input_ne_zero vc mc c h
    simp [jsTruthyOptQ, hc]

theorem jsTruthyOptQ_eq_isSome_of_stored_output (vc : VendorConfig) (mc : ModelConfig) :
    jsTruthyOptQ (mkAnthropicAdapter vc mc).outputTokenCost =
      (mkAnthropicAdapter vc mc).outputTokenCost.isSome := by
  rcases h : (mkAnthropicAdapter vc mc).outputTokenCost with _ | c
  · rfl
  · have hc := mkAdapter_stored_output_ne_zero vc mc c h
    simp [jsTruthyOptQ, hc]

/-! ## Claims -/

/-- C1 (corrected): the outbound-then-inbound round trip is NOT lossless
for Thinking blocks as the claim states it. At the concrete input of one
Thinking block with thinking text t and signature sig, the round trip
yields the same thinking text but the signature anthropic instead of sig,
so the sequence is not returned unchanged. -/
theorem c1_roundTrip_counterexample :
    roundTrip [ContentBlock.thinking "t" "sig"] =
      [ContentBlock.thinking "t" "anthropic"] ∧
    roundTrip [ContentBlock.thinking "t" "sig"] ≠
      [ContentBlock.thinking "t" "sig"] := by
  refine ⟨rfl, ?_⟩
  decide

/-- C1 (amended): for every content-block sequence containing only kinds
the Anthropic adapter supports (text and thinking), the outbound-then-
inbound round trip through a vendor echo preserves each text block exactly
and preserves each thinking block's thinking text, while replacing its
signature by the adapter literal anthropic — so the signature survives only
when it was already anthropic. -/
theorem c1_roundTrip_amended (bs : List ContentBlock)
    (h : ∀ b ∈ bs, anthropicSupported b = true) :
    roundTrip bs = bs.map inboundCanonical := by
  induction bs with
  | nil => rfl
  | cons b rest ih =>
    have hb := h b (by simp)
    have hrest : ∀ x ∈ rest, anthropicSupported x = true := by
      intro x hx
      exact h x (by simp [hx])
    have ih2 := ih hrest
    unfold roundTrip mapOutBlocks mapInbound at ih2 ⊢
    cases b with
    | text t =>
      simp [mapOutBlock, echoBlock, mapInboundBlock, inboundCanonical, ih2]
    | thinking t s =>
      simp [mapOutBlock, echoBlock, mapInboundBlock, inboundCanonical, ih2]
    | redactedThinking d => simp [anthropicSupported] at hb
    | image u => simp [anthropicSupported] at hb
    | imageData m d => simp [anthropicSupported] at hb
    | toolUse n i => simp [anthropicSupported] at hb

/-- Witness for C1 (amended) at a concrete two-block sequence. -/
theorem c1_roundTrip_amended_witness :
    roundTrip [ContentBlock.text "a", ContentBlock.thinking "t" "sig"] =
      [ContentBlock.text "a", ContentBlock.thinking "t" "anthropic"] := by
  have h := c1_roundTrip_amended
    [ContentBlock.text "a", ContentBlock.thinking "t" "sig"] (by decide)
  simpa [inboundCanonical] using h

/-- C2 (confirmed): whenever the blockwise outbound mapping of a message's
content sequence is empty — e.g. the sequence holds only image blocks —
formatMessage falls back to a string content carrying the JSON
serialization of the original block array (the vendor wire form of a
single text payload), and that serialization is never the empty string, so
the vendor is never sent an empty message payload. -/
theorem c2_empty_content_fallback (role : String) (bs : List ContentBlock)
    (h : mapOutBlocks bs = []) :
    formatMessage ⟨role, MessageContent.blocks bs⟩ =
      ⟨roleOf role, AnthropicMsgContent.str (stringifyContentBlocks bs)⟩ ∧
    stringifyContentBlocks bs ≠ "" := by
  constructor
  · simp [formatMessage, h]
  · exact stringifyContentBlocks_ne_empty bs

/-- Witness for C2 at a message holding only an image block. -/
theorem c2_empty_content_fallback_witness :
    formatMessage ⟨"user", MessageContent.blocks [ContentBlock.image "http://img"]⟩ =
      ⟨"user", AnthropicMsgContent.str
        (stringifyContentBlocks [ContentBlock.image "http://img"])⟩ ∧
    stringifyContentBlocks [ContentBlock.image "http://img"] ≠ "" := by
  have h := c2_empty_content_fallback "user" [ContentBlock.image "http://img"] rfl
  exact ⟨by simpa [roleOf] using h.1, h.2⟩

/-- C3 (code bug): the AnthropicAdapter class no longer has a sendMCPChat
method (it is removed, per the comment at anthropic.ts:285), so invoking it
raises a JavaScript TypeError; it never throws the NotSupported Error with
the fixed explanatory message that the claim and the repository's own
embedded test suite expect. -/
theorem c3_sendMCPChat_method_missing :
    (∀ a chat tool, sendMCPChat a chat tool = MCPChatResult.typeErrorNotAFunction) ∧
    (∀ a chat tool, sendMCPChat a chat tool ≠
      MCPChatResult.thrownError mcpNotSupportedMessage) := by
  constructor
  · intro a chat tool
    rfl
  · intro a chat tool
    simp [sendMCPChat]

theorem jsTruthyNat_true_iff (n : Nat) : jsTruthyNat n = true ↔ n ≠ 0 := by
  unfold jsTruthyNat
  split
  · rename_i h
    simp [h]
  · rename_i h
    simp [h]

/-- C4 (corrected): the claim's iff fails on the code because the usage
guard tests truthiness, not presence. Concretely: with both rates
configured (15/1,000,000 and 75/1,000,000, both stored on the adapter) and
a raw response whose token counts are present with values 0 and 5, usage is
omitted even though every value is present. -/
theorem c4_usage_counterexample :
    (mkAnthropicAdapter ⟨"k", none⟩
      ⟨"claude-3-opus-20240229", true, false, true,
        some (15/1000000), some (75/1000000)⟩).inputTokenCost =
      some (15/1000000) ∧
    (mkAnthropicAdapter ⟨"k", none⟩
      ⟨"claude-3-opus-20240229", true, false, true,
        some (15/1000000), some (75/1000000)⟩).outputTokenCost =
      some (75/1000000) ∧
    computeUsage (mkAnthropicAdapter ⟨"k", none⟩
      ⟨"claude-3-opus-20240229", true, false, true,
        some (15/1000000), some (75/1000000)⟩) ⟨0, 5⟩ = none := by
  have h15 : (15/1000000 : ℚ) ≠ 0 := by norm_num
  have h75 : (75/1000000 : ℚ) ≠ 0 := by norm_num
  refine ⟨?_, ?_, ?_⟩
  · simp [mkAnthropicAdapter, jsTruthyOptQ, h15, h75]
  · simp [mkAnthropicAdapter, jsTruthyOptQ, h15, h75]
  · simp [computeUsage, jsTruthyNat]

/-- C4 (amended): generateResponse populates usage iff both token counts
are nonzero (JS-truthy) and both cost rates are configured on the adapter;
when populated, inputCost and outputCost each equal tokenCount times the
configured per-token rate and totalCost is their sum; with rates
15/1,000,000 and 75/1,000,000 and a response of 10 input and 5 output
tokens the result is inputCost 0.00015, outputCost 0.000375 and totalCost
0.000525; otherwise usage is omitted entirely, never defaulted to zero. -/
theorem c4_usage_amended (vc : VendorConfig) (mc : ModelConfig) (u : RawUsage) :
    ((computeUsage (mkAnthropicAdapter vc mc) u).isSome = true ↔
      (u.input_tokens ≠ 0 ∧ u.output_tokens ≠ 0 ∧
        (mkAnthropicAdapter vc mc).inputTokenCost.isSome = true ∧
        (mkAnthropicAdapter vc mc).outputTokenCost.isSome = true)) ∧
    (∀ ci co, (mkAnthropicAdapter vc mc).inputTokenCost = some ci →
      (mkAnthropicAdapter vc mc).outputTokenCost = some co →
      u.input_tokens ≠ 0 → u.output_tokens ≠ 0 →
      computeUsage (mkAnthropicAdapter vc mc) u =
        some ⟨(u.input_tokens : ℚ) * ci, (u.output_tokens : ℚ) * co,
          (u.input_tokens : ℚ) * ci + (u.output_tokens : ℚ) * co⟩) ∧
    computeUsage (mkAnthropicAdapter vc
      { mc with inputTokenCost := some (15/1000000),
                outputTokenCost := some (75/1000000) }) ⟨10, 5⟩ =
      some ⟨15/100000, 375/1000000, 525/1000000⟩ := by
  have e1 := jsTruthyOptQ_eq_isSome_of_stored_input vc mc
  have e2 := jsTruthyOptQ_eq_isSome_of_stored_output vc mc
  refine ⟨?_, ?_, ?_⟩
  · unfold computeUsage
    rw [e1, e2]
    split_ifs with hg
    · simp only [Option.isSome_some, true_iff]
      simp only [Bool.and_eq_true, jsTruthyNat_true_iff] at hg
      exact ⟨hg.1.1.1, hg.1.1.2, hg.1.2, hg.2⟩
    · simp only [Option.isSome_none, Bool.false_eq_true, false_iff]
      rintro ⟨h1, h2, h3, h4⟩
      exact hg (by simp [Bool.and_eq_true, jsTruthyNat_true_iff, h1, h2, h3, h4])
  · intro ci co hci hco hi ho
    have hci0 := mkAdapter_stored_input_ne_zero vc mc ci hci
    have hco0 := mkAdapter_stored_output_ne_zero vc mc co hco
    unfold computeUsage
    rw [hci, hco]
    simp [jsTruthyOptQ, jsTruthyNat, hi, ho, hci0, hco0, computeResponseCost]
  · have h15 : (15/1000000 : ℚ) ≠ 0 := by norm_num
    have h75 : (75/1000000 : ℚ) ≠ 0 := by norm_num
    simp only [computeUsage, mkAnthropicAdapter, jsTruthyOptQ, jsTruthyNat,
      computeResponseCost]
    norm_num

/-- Witness for C4 (amended): applying the populated case at the scenario
input with both rates stored. -/
theorem c4_usage_amended_witness :
    computeUsage (mkAnthropicAdapter ⟨"k", none⟩
      ⟨"claude-3-opus-20240229", true, false, true,
        some (15/1000000), some (75/1000000)⟩) ⟨10, 5⟩ =
      some ⟨(10 : ℚ) * (15/1000000), (5 : ℚ) * (75/1000000),
        (10 : ℚ) * (15/1000000) + (5 : ℚ) * (75/1000000)⟩ := by
  have h := c4_usage_amended ⟨"k", none⟩
    ⟨"claude-3-opus-20240229", true, false, true,
      some (15/1000000), some (75/1000000)⟩ ⟨10, 5⟩
  exact h.2.1 (15/1000000) (75/1000000)
    (by norm_num [mkAnthropicAdapter, jsTruthyOptQ])
    (by norm_num [mkAnthropicAdapter, jsTruthyOptQ])
    (by decide) (by decide)

/-- C5 (confirmed): sendChat builds the outbound messages as the response
history followed by one synthesized user message holding the prompt as a
single text block, appended only when the prompt is non-empty; it derives
thinkingMode as budgetTokens greater than zero (budgetTokens 500 gives
thinkingMode true with budgetTokens 500 passed through, budgetTokens null
gives thinkingMode false with no budget passed); it delegates to
generateResponse and returns its role, content and usage unchanged. -/
theorem c5_sendChat_delegation (a : AnthropicAdapter) (chat : Chat) (raw : RawResponse) :
    (sendChatOptions chat).messages =
      chat.responseHistory ++
        (if chat.prompt = "" then []
         else [⟨"user", MessageContent.blocks [ContentBlock.text chat.prompt]⟩]) ∧
    (sendChatOptions chat).thinkingMode = decide (0 < chat.budgetTokens.getD 0) ∧
    (chat.budgetTokens = some 500 →
      (sendChatOptions chat).thinkingMode = true ∧
      (sendChatOptions chat).budgetTokens = some 500) ∧
    (chat.budgetTokens = none →
      (sendChatOptions chat).thinkingMode = false ∧
      (sendChatOptions chat).budgetTokens = none) ∧
    sendChat a chat raw =
      ⟨(generateResponse a (sendChatOptions chat) raw).role,
       (generateResponse a (sendChatOptions chat) raw).content,
       (generateResponse a (sendChatOptions chat) raw).usage⟩ := by
  refine ⟨?_, rfl, ?_, ?_, rfl⟩
  · show sendChatMessages chat = _
    unfold sendChatMessages jsTruthyStr
    by_cases hp : chat.prompt = "" <;> simp [hp]
  · intro h
    constructor
    · simp [sendChatOptions, h]
    · simp [sendChatOptions, jsOrUndefNat, h]
  · intro h
    constructor
    · simp [sendChatOptions, h]
    · simp [sendChatOptions, jsOrUndefNat, h]

/-- Witness for C5 at a concrete chat with budgetTokens 500. -/
theorem c5_sendChat_delegation_witness :
    (sendChatOptions ⟨"m", [], "Think about this", none, some 100, some 500, none⟩).thinkingMode
      = true ∧
    (sendChatOptions ⟨"m", [], "Think about this", none, some 100, some 500, none⟩).budgetTokens
      = some 500 := by
  have h := c5_sendChat_delegation
    (mkAnthropicAdapter ⟨"k", none⟩ ⟨"m", true, false, true, none, none⟩)
    ⟨"m", [], "Think about this", none, some 100, some 500, none⟩
    ⟨[], ⟨1, 1⟩⟩
  exact h.2.2.1 rfl

/-- C6 (confirmed): in the vendor request, max_tokens defaults to 1024 when
maxTokens is unset; the thinking block is present iff thinkingMode is set
and the adapter is thinking-capable; when present, budget_tokens is
budgetTokens when positive, else the integer floor of half of the effective
maxTokens, which is 512 (half of 1024) when maxTokens is also unset. -/
theorem c6_request_construction (a : AnthropicAdapter) (o : AIRequestOptions) :
    (o.maxTokens = none → (buildRequest a o).max_tokens = 1024) ∧
    ((buildRequest a o).thinking.isSome = true ↔
      (o.thinkingMode = true ∧ a.isThinkingCapable = true)) ∧
    (∀ b, o.thinkingMode = true → a.isThinkingCapable = true →
      o.budgetTokens = some b → 0 < b →
      (buildRequest a o).thinking = some ⟨"enabled", b⟩) ∧
    (∀ m, o.thinkingMode = true → a.isThinkingCapable = true →
      (o.budgetTokens = none ∨ o.budgetTokens = some 0) →
      o.maxTokens = some m → m ≠ 0 →
      (buildRequest a o).thinking = some ⟨"enabled", m / 2⟩) ∧
    (o.thinkingMode = true → a.isThinkingCapable = true →
      (o.budgetTokens = none ∨ o.budgetTokens = some 0) →
      o.maxTokens = none →
      (buildRequest a o).thinking = some ⟨"enabled", 512⟩) := by
  refine ⟨?_, ?_, ?_, ?_, ?_⟩
  · intro h
    simp [buildRequest, jsOrNat, h]
  · simp only [buildRequest]
    cases hm : o.thinkingMode <;> cases hc : a.isThinkingCapable <;> simp
  · intro b hm hc hb hpos
    have hb0 : b ≠ 0 := Nat.pos_iff_ne_zero.mp hpos
    simp [buildRequest, hm, hc, jsOrNat, hb, hb0]
  · intro m hm hc hbud hmax hm0
    rcases hbud with hb | hb <;>
      simp [buildRequest, hm, hc, jsOrNat, hb, hmax, hm0]
  · intro hm hc hbud hmax
    rcases hbud with hb | hb <;>
      simp [buildRequest, hm, hc, jsOrNat, hb, hmax]

/-- Witness for C6: a thinking-capable adapter with thinkingMode set and
neither budgetTokens nor maxTokens supplied gets max_tokens 1024 and
budget_tokens 512. -/
theorem c6_request_construction_witness :
    (buildRequest (mkAnthropicAdapter ⟨"k", none⟩ ⟨"m", true, false, true, none, none⟩)
      ⟨"m", [], none, none, none, true, none⟩).max_tokens = 1024 ∧
    (buildRequest (mkAnthropicAdapter ⟨"k", none⟩ ⟨"m", true, false, true, none, none⟩)
      ⟨"m", [], none, none, none, true, none⟩).thinking = some ⟨"enabled", 512⟩ := by
  have h := c6_request_construction
    (mkAnthropicAdapter ⟨"k", none⟩ ⟨"m", true, false, true, none, none⟩)
    ⟨"m", [], none, none, none, true, none⟩
  exact ⟨h.1 rfl, h.2.2.2.2 rfl rfl (Or.inl rfl) rfl⟩

/-- C7 (confirmed): no mapping-local failure aborts a chat call. A tool
whose input_schema is a string that fails to parse (such as the string: not
json), or parses to a non-object, or parses to an object lacking a type
field, maps to a tool carrying the fallback schema, the mapping being a
total function that raises nothing; and an inbound vendor content block of
an unrecognized kind is omitted from the canonical response, again without
an error. -/
theorem c7_defensive_mapping :
    (∀ t s, t.input_schema = Json.str s → jsonParse s = none →
      mapTool t = ⟨t.name, t.description, fallbackSchema⟩) ∧
    (∀ t s j, t.input_schema = Json.str s → jsonParse s = some j →
      (∀ fs, j ≠ Json.obj fs) →
      mapTool t = ⟨t.name, t.description, fallbackSchema⟩) ∧
    (∀ t s fs, t.input_schema = Json.str s → jsonParse s = some (Json.obj fs) →
      hasTypeField fs = false →
      mapTool t = ⟨t.name, t.description, fallbackSchema⟩) ∧
    jsonParse "not json" = none ∧
    (∀ tag rest, mapInbound (AnthropicResponseBlock.unknown tag :: rest) =
      mapInbound rest) := by
  refine ⟨?_, ?_, ?_, ?_, ?_⟩
  · intro t s hs hp
    simp [mapTool, mapToolSchema, hs, hp]
  · intro t s j hs hp hnj
    cases j with
    | obj fs => exact absurd rfl (hnj fs)
    | null => simp [mapTool, mapToolSchema, hs, hp]
    | bool b => simp [mapTool, mapToolSchema, hs, hp]
    | num q => simp [mapTool, mapToolSchema, hs, hp]
    | str s2 => simp [mapTool, mapToolSchema, hs, hp]
    | arr xs => simp [mapTool, mapToolSchema, hs, hp]
  · intro t s fs hs hp ht
    simp [mapTool, mapToolSchema, hs, hp, ht]
  · rfl
  · intro tag rest
    simp [mapInbound, mapInboundBlock]

/-- Witness for C7: the concrete tool whose schema is the unparseable
string from the spec scenario maps to the fallback schema, and a concrete
unknown inbound block is dropped. -/
theorem c7_defensive_mapping_witness :
    mapTool ⟨"dummy", "a tool", Json.str "not json"⟩ =
      ⟨"dummy", "a tool", fallbackSchema⟩ ∧
    mapInbound [AnthropicResponseBlock.unknown "server_tool_use"] = [] := by
  have h := c7_defensive_mapping
  refine ⟨h.1 ⟨"dummy", "a tool", Json.str "not json"⟩ "not json" rfl (by rfl), ?_⟩
  have h2 := h.2.2.2.2 "server_tool_use" []
  simpa [mapInbound] using h2

/-- C8 (confirmed): generateImage on an adapter built from a ModelConfig
with image generation disabled always fails with the not-supported error,
inside the adapter itself, and never returns an image string. -/
theorem c8_generateImage_not_supported (vc : VendorConfig) (mc : ModelConfig)
    (chat : Chat) (h : mc.isImageGeneration = false) :
    generateImage (mkAnthropicAdapter vc mc) chat =
      Except.error imageNotSupportedMessage ∧
    (mkAnthropicAdapter vc mc).isImageGenerationCapable = false ∧
    (∀ s, generateImage (mkAnthropicAdapter vc mc) chat ≠ Except.ok s) := by
  refine ⟨rfl, ?_, ?_⟩
  · simp [mkAnthropicAdapter, h]
  · intro s
    simp [generateImage]

/-- Witness for C8 at a concrete image-generation-incapable model. -/
theorem c8_generateImage_not_supported_witness :
    generateImage (mkAnthropicAdapter ⟨"k", none⟩
        ⟨"claude-3-opus-20240229", true, false, true, none, none⟩)
      ⟨"m", [], "draw a cat", none, none, none, none⟩ =
      Except.error imageNotSupportedMessage := by
  have h := c8_generateImage_not_supported ⟨"k", none⟩
    ⟨"claude-3-opus-20240229", true, false, true, none, none⟩
    ⟨"m", [], "draw a cat", none, none, none, none⟩ rfl
  exact h.1

/-- C9 (confirmed): the outbound mapping passes a Thinking block through
verbatim, signature included; the inbound mapping assigns the deterministic
adapter-identifying signature anthropic to a reasoning block that lacks a
signature; and every Thinking block emitted in a canonical response carries
the non-empty signature anthropic. -/
theorem c9_thinking_signature :
    (∀ t s, mapOutBlock (ContentBlock.thinking t s) =
      some (AnthropicOutBlock.thinking t s)) ∧
    (∀ t, mapInboundBlock (AnthropicResponseBlock.thinking t "") =
      some (ContentBlock.thinking t "anthropic")) ∧
    (∀ blocks t s, ContentBlock.thinking t s ∈ mapInbound blocks →
      s = "anthropic" ∧ s ≠ "") := by
  refine ⟨fun t s => rfl, fun t => rfl, ?_⟩
  intro blocks t s hmem
  simp only [mapInbound, List.mem_filterMap] at hmem
  obtain ⟨b, _, hb⟩ := hmem
  cases b with
  | thinking t2 s2 =>
    simp only [mapInboundBlock, Option.some.injEq, ContentBlock.thinking.injEq] at hb
    obtain ⟨h1, h2⟩ := hb
    subst h2
    exact ⟨rfl, by decide⟩
  | text t2 => simp [mapInboundBlock] at hb
  | toolUse n i => simp [mapInboundBlock] at hb
  | redactedThinking d => simp [mapInboundBlock] at hb
  | unknown tag => simp [mapInboundBlock] at hb

/-- Witness for C9: a concrete inbound thinking block with an empty
signature is emitted with the non-empty signature anthropic. -/
theorem c9_thinking_signature_witness :
    ("anthropic" : String) = "anthropic" ∧ ("anthropic" : String) ≠ "" := by
  have h := c9_thinking_signature
  exact h.2.2 [AnthropicResponseBlock.thinking "let me think" ""]
    "let me think" "anthropic" (by simp [mapInbound, mapInboundBlock])

/-- C10 (confirmed): because both the constructor's rate-storing condition
and the usage guard test truthiness, usage is omitted whenever
input_tokens or output_tokens is 0, and whenever either configured
per-token cost is 0 or only one of the two costs is configured — in which
case neither cost is stored on the adapter. -/
theorem c10_truthiness_gating (vc : VendorConfig) (mc : ModelConfig) (u : RawUsage) :
    (u.input_tokens = 0 ∨ u.output_tokens = 0 →
      computeUsage (mkAnthropicAdapter vc mc) u = none) ∧
    (mc.inputTokenCost = some 0 ∨ mc.outputTokenCost = some 0 ∨
      (mc.inputTokenCost.isSome = true ∧ mc.outputTokenCost = none) ∨
      (mc.inputTokenCost = none ∧ mc.outputTokenCost.isSome = true) →
      (mkAnthropicAdapter vc mc).inputTokenCost = none ∧
      (mkAnthropicAdapter vc mc).outputTokenCost = none ∧
      computeUsage (mkAnthropicAdapter vc mc) u = none) := by
  constructor
  · intro h
    rcases h with h | h <;> simp [computeUsage, jsTruthyNat, h]
  · intro h
    have hg : (jsTruthyOptQ mc.inputTokenCost && jsTruthyOptQ mc.outputTokenCost) = false := by
      rcases h with h | h | ⟨h1, h2⟩ | ⟨h1, h2⟩
      · simp [jsTruthyOptQ, h]
      · simp [jsTruthyOptQ, h]
      · simp [jsTruthyOptQ, h2]
      · simp [jsTruthyOptQ, h1]
    have hin : (mkAnthropicAdapter vc mc).inputTokenCost = none := by
      simp [mkAnthropicAdapter, hg]
    have hout : (mkAnthropicAdapter vc mc).outputTokenCost = none := by
      simp [mkAnthropicAdapter, hg]
    refine ⟨hin, hout, ?_⟩
    unfold computeUsage
    rw [hin, hout]
    simp [jsTruthyOptQ]

/-- Witness for C10: usage is omitted for a zero input token count with
both rates configured, and a lone input rate is not stored at all. -/
theorem c10_truthiness_gating_witness :
    computeUsage (mkAnthropicAdapter ⟨"k", none⟩
      ⟨"m", true, false, true, some (3/1000000), some (15/1000000)⟩) ⟨0, 5⟩ = none ∧
    (mkAnthropicAdapter ⟨"k", none⟩
      ⟨"m", true, false, true, some (3/1000000), none⟩).inputTokenCost = none := by
  have h1 := c10_truthiness_gating ⟨"k", none⟩
    ⟨"m", true, false, true, some (3/1000000), some (15/1000000)⟩ ⟨0, 5⟩
  have h2 := c10_truthiness_gating ⟨"k", none⟩
    ⟨"m", true, false, true, some (3/1000000), none⟩ ⟨1, 1⟩
  exact ⟨h1.1 (Or.inl rfl), (h2.2 (Or.inr (Or.inr (Or.inl ⟨rfl, rfl⟩)))).1⟩

end Snowgander
